import Mathlib

/-!
Verification of the byte-stream / pixel-frame framing layer of `bin2vid.py`
(KneelStar/bin2vid), a tool that round-trips a folder through a lossless
video container. The definitions below are shallow embeddings of the
functions in `src/bin2vid.py`; theorems check the spec's testable
properties against them. Byte sequences are modelled as `List Nat`,
file contents as `String`, and Python exceptions as explicit error values.
-/

/-- Frame width, `WIDTH = 1920` (bin2vid.py line 12). -/
def WIDTH : Nat := 1920

/-- Frame height, `HEIGHT = 1080` (bin2vid.py line 13). -/
def HEIGHT : Nat := 1080

/-- Pixels per frame, `PIXELS_PER_FRAME = WIDTH * HEIGHT` (bin2vid.py line 14). -/
def PIXELS_PER_FRAME : Nat := WIDTH * HEIGHT

/-- Bytes per frame, `BYTES_PER_FRAME = PIXELS_PER_FRAME * 3` for RGB24 (bin2vid.py line 15). -/
def BYTES_PER_FRAME : Nat := PIXELS_PER_FRAME * 3

/-- Frame count, `num_frames = math.ceil(original_size / BYTES_PER_FRAME)`
(bin2vid.py line 145), as exact ceiling division on naturals. -/
def num_frames (original_size : Nat) : Nat :=
  (original_size + BYTES_PER_FRAME - 1) / BYTES_PER_FRAME

/-- Padded stream, `padded = data + zeros(BYTES_PER_FRAME * num_frames - original_size)`
(bin2vid.py line 146): the payload followed by zero bytes up to a whole
number of frames. -/
def padded (data : List Nat) : List Nat :=
  data ++ List.replicate (BYTES_PER_FRAME * num_frames data.length - data.length) 0

/-- Python's `data[:i]` slice semantics for a possibly negative bound:
for `0 <= i` it is the first `i` elements (clamped at the length), for
`i < 0` it drops the last `-i` elements. -/
def pySliceTo (data : List Nat) (i : Int) : List Nat :=
  if 0 ≤ i then data.take i.toNat else data.take (data.length - (-i).toNat)

/-- Unpacking, `restored = data[:original_size]` (bin2vid.py line 224): the frame
unpacker is a plain Python slice of the decoded byte stream. -/
def restored (data : List Nat) (original_size : Int) : List Nat :=
  pySliceTo data original_size

/-- The spec's words for the unpacker (section 4.2), for comparison with
`restored`: return the first `original_size` bytes, but signal
`TruncatedFrameData` when `len(frames) < original_size`. -/
inductive UnpackError where
  | truncatedFrameData
deriving DecidableEq

/-- The unpacker as the spec describes it (section 4.2): error on a frame
stream shorter than the recorded size, otherwise truncate. Stated from the
spec's words, to be compared with the code's `restored`. -/
def specUnpack (frames : List Nat) (original_size : Nat) :
    Except UnpackError (List Nat) :=
  if frames.length < original_size then .error .truncatedFrameData
  else .ok (frames.take original_size)

/-! ### Python string primitives used by the metadata store

`encode_zst_to_video` writes the sidecar as `f"{original_size}\n{num_frames}\n"`
(bin2vid.py line 156); `decode_video_to_zst` reads it back with
`meta.read().strip().split('\n')` and `int(lines[0])` (lines 216-218).
The pieces below embed exactly those Python string operations. -/

/-- The whitespace characters stripped by Python's `str.strip()`. -/
def isPySpace (c : Char) : Bool :=
  c = ' ' || c = '\t' || c = '\n' || c = '\r' || c = '\x0b' || c = '\x0c'

/-- Python's `str.strip()` on a character list: drop whitespace from both
ends. -/
def pyStripList (cs : List Char) : List Char :=
  ((cs.dropWhile isPySpace).reverse.dropWhile isPySpace).reverse

/-- Python's `s.split('\n')`: split at every newline; always returns a
non-empty list of lines. -/
def splitNl : List Char → List (List Char)
  | [] => [[]]
  | c :: rest =>
    if c = '\n' then [] :: splitNl rest
    else
      match splitNl rest with
      | [] => [[c]]
      | l :: ls => (c :: l) :: ls

/-- The decimal digit characters, as Python's integer formatting emits
them. -/
def digitChar (d : Nat) : Char :=
  match d with
  | 0 => '0'
  | 1 => '1'
  | 2 => '2'
  | 3 => '3'
  | 4 => '4'
  | 5 => '5'
  | 6 => '6'
  | 7 => '7'
  | 8 => '8'
  | 9 => '9'
  | _ => '*'

/-- The value of a decimal digit character, `none` on any other
character. -/
def charDigit? (c : Char) : Option Nat :=
  if 48 ≤ c.toNat ∧ c.toNat ≤ 57 then some (c.toNat - 48) else none

/-- Accumulate the value of a run of decimal digits; `none` as soon as a
non-digit appears. -/
def parseDigitsFrom (acc : Nat) : List Char → Option Nat
  | [] => some acc
  | c :: cs =>
    match charDigit? c with
    | some d => parseDigitsFrom (10 * acc + d) cs
    | none => none

/-- A non-empty all-digit run parsed as a natural number; `none` on the
empty string or any non-digit. -/
def parseUnsigned? (cs : List Char) : Option Nat :=
  if cs = [] then none else parseDigitsFrom 0 cs

/-- Python's `int(s)` on a character list: strip whitespace, optional
sign, then a non-empty run of decimal digits; any other shape raises
`ValueError`, modelled as `none`. -/
def pyIntList? (cs : List Char) : Option Int :=
  match pyStripList cs with
  | [] => none
  | c :: rest =>
    if c = '-' then (parseUnsigned? rest).map (fun n => -(n : Int))
    else if c = '+' then (parseUnsigned? rest).map (fun n => (n : Int))
    else (parseUnsigned? (c :: rest)).map (fun n => (n : Int))

/-- Metadata lines, `lines = meta.read().strip().split('\n')` (bin2vid.py line 217). -/
def metaLines (content : String) : List (List Char) :=
  splitNl (pyStripList content.data)

/-- Recorded size, `original_size = int(lines[0])` (bin2vid.py line 218): parse the
first line of the stripped metadata as an integer; `none` models the
`ValueError` Python raises on an unparsable line. -/
def readOriginalSize (content : String) : Option Int :=
  pyIntList? ((metaLines content).headD [])

/-- Fuel-driven digit expansion; with fuel above `n` it produces the
decimal digit string of `n`, most significant digit first. -/
def natDigitsAux (fuel : Nat) (n : Nat) : List Char :=
  match fuel with
  | 0 => []
  | fuel + 1 =>
    if n < 10 then [digitChar n]
    else natDigitsAux fuel (n / 10) ++ [digitChar (n % 10)]

/-- The decimal digit string of a natural number, most significant digit
first, as Python's `f"{n}"` formatting produces. -/
def natDigits (n : Nat) : List Char := natDigitsAux (n + 1) n

/-- Metadata writing, `meta.write(f"{original_size}\n{num_frames}\n")` (bin2vid.py
line 156): the sidecar metadata file content for a given size and frame
count. -/
def writeMeta (original_size frame_count : Nat) : String :=
  ⟨natDigits original_size ++ '\n' :: (natDigits frame_count ++ ['\n'])⟩

/-- Reading the metadata record back as the pair `(original_size,
frame_count)`, using the same line-splitting and integer parsing the
decoder applies to line 1 (bin2vid.py lines 217-218), extended to line 2
as the spec's metadata-store contract describes. -/
def readMetaPair (content : String) : Option (Int × Int) :=
  let ls := metaLines content
  match pyIntList? (ls.headD []), pyIntList? (ls.getD 1 []) with
  | some a, some b => some (a, b)
  | _, _ => none

/-! ### Decode: metadata handling and the order of operations

`decode_video_to_zst` (bin2vid.py lines 190-238) runs ffmpeg on the video
first (line 213), only then opens and parses the metadata file
(lines 216-218), and finally writes the truncated bytes (lines 224-231). -/

/-- The observable steps of `decode_video_to_zst`, in execution order. -/
inductive DecEvent where
  | runFfmpegDecode
  | openMetaFile
  | writeOutputFile
deriving DecidableEq

/-- The Python exceptions `decode_video_to_zst` raises while handling the
metadata file: `FileNotFoundError` from `open` on a missing file, and
`ValueError` from `int()` on an unparsable first line. -/
inductive PyError where
  | fileNotFoundError
  | valueError
deriving DecidableEq

/-- Shallow embedding of `decode_video_to_zst` (bin2vid.py lines 190-238)
over its observable inputs: the metadata file content (`none` when the
file is missing) and the raw byte stream ffmpeg produced. Returns the
ordered list of steps performed and the outcome: the bytes written to the
output file, or the Python exception raised. The ffmpeg invocation
(line 213) precedes the metadata read (line 216). -/
def decode_video_to_zst (metaContent : Option String) (ffmpegData : List Nat) :
    List DecEvent × Except PyError (List Nat) :=
  match metaContent with
  | none => ([.runFfmpegDecode, .openMetaFile], .error .fileNotFoundError)
  | some c =>
    match readOriginalSize c with
    | none => ([.runFfmpegDecode, .openMetaFile], .error .valueError)
    | some i => ([.runFfmpegDecode, .openMetaFile, .writeOutputFile],
        .ok (pySliceTo ffmpegData i))

/-! ### Tool availability and the orchestrator -/

/-- Which of the two required external tools are present on the PATH. -/
structure ToolAvail where
  ffmpeg : Bool
  zstd : Bool
deriving DecidableEq

/-- The list of missing required tools, in the fixed order `check_tools`
examines them (bin2vid.py lines 31-37). -/
def missing_tools (a : ToolAvail) : List String :=
  (if a.ffmpeg then [] else ["ffmpeg"]) ++ (if a.zstd then [] else ["zstd"])

/-- Embedding of `check_tools` (bin2vid.py lines 29-59): raises `RuntimeError` naming
the missing tools when any required tool is absent, and returns normally
otherwise. Checking tool availability touches no files. -/
def check_tools (a : ToolAvail) : Except String Unit :=
  if missing_tools a = [] then .ok ()
  else .error ("Required tools not found: " ++ String.intercalate ", " (missing_tools a))

/-- The orchestrator's top-level actions (bin2vid.py `main`,
lines 241-290), in execution order. `checkToolsStep` touches no files;
every later action reads or writes the filesystem. -/
inductive MainAction where
  | checkToolsStep
  | compressFolderStep
  | encodeVideoStep
  | decodeVideoStep
  | decompressFolderStep
  | removeTempZstStep
deriving DecidableEq

/-- The two subcommands of the tool. -/
inductive Command where
  | encode
  | decode
deriving DecidableEq

/-- Shallow embedding of `main` (bin2vid.py lines 241-290): `check_tools`
runs before anything else; if it raises, main prints the diagnostic and
exits with status 1 before touching any file; otherwise the selected
pipeline runs and the temporary `.zst` is removed at the end. Returns the
actions performed and the exit status. -/
def main_run (a : ToolAvail) (cmd : Command) : List MainAction × Nat :=
  match check_tools a with
  | .error _ => ([.checkToolsStep], 1)
  | .ok _ =>
    match cmd with
    | .encode => ([.checkToolsStep, .compressFolderStep, .encodeVideoStep,
        .removeTempZstStep], 0)
    | .decode => ([.checkToolsStep, .decodeVideoStep, .decompressFolderStep,
        .removeTempZstStep], 0)

/-! ### Temporary-artifact lifecycle of the two pipelines -/

/-- The temporary artifacts of the encode pipeline: the TAR archive
stream, the compressed `.zst` stream, and the padded raw frame stream.
Each flag records whether the file currently exists. -/
structure EncTemps where
  tempTar : Bool
  tempZst : Bool
  rawFile : Bool
deriving DecidableEq

/-- The encode-pipeline steps at which an external invocation or file
write can fail, in execution order. All lie inside a `try` block whose
`finally` removes the temporaries of the enclosing function, except
`rawWrite`: the write of the padded frame stream to the raw temp file
(`temp_raw.write(padded)`, bin2vid.py line 151) happens before the `try`
of `encode_zst_to_video` begins. -/
inductive EncFail where
  | tarBuild
  | zstdCompress
  | rawWrite
  | metaWrite
  | ffmpegEncode
deriving DecidableEq

/-- Temp-file lifecycle of `compress_folder_to_zst` (bin2vid.py
lines 62-98): `mkstemp` creates the temporary TAR, the TAR build and the
zstd compression run inside `try`, and the `finally` (lines 95-98) removes
the TAR whether or not a step failed. The zstd output is modelled as
created even when zstd fails, the worst case for cleanup. Returns the
temp-file state and whether the call completed. -/
def compress_folder_to_zst (fail : Option EncFail) (s : EncTemps) : EncTemps × Bool :=
  let s1 := { s with tempTar := true }
  if fail = some EncFail.tarBuild then ({ s1 with tempTar := false }, false)
  else
    let s2 := { s1 with tempZst := true }
    if fail = some EncFail.zstdCompress then ({ s2 with tempTar := false }, false)
    else ({ s2 with tempTar := false }, true)

/-- Temp-file lifecycle of `encode_zst_to_video` (bin2vid.py
lines 135-187): the raw padded frame file is created and the padded stream
written to it (lines 149-151) before the `try` begins; only the metadata
write and the ffmpeg encode run inside `try`, and the `finally`
(lines 184-187) removes the raw file whether or not a step inside failed.
A failure of the raw write itself therefore propagates with the raw file
still on disk: no `finally` covers it. -/
def encode_zst_to_video (fail : Option EncFail) (s : EncTemps) : EncTemps × Bool :=
  let s1 := { s with rawFile := true }
  if fail = some EncFail.rawWrite then (s1, false)
  else if fail = some EncFail.metaWrite then ({ s1 with rawFile := false }, false)
  else if fail = some EncFail.ffmpegEncode then ({ s1 with rawFile := false }, false)
  else ({ s1 with rawFile := false }, true)

/-- The encode branch of `main` (bin2vid.py lines 261-273): the two stages
run inside `try`, and the `finally` (lines 270-273) removes the temporary
`.zst`. The result is the final temp-file state after all cleanup. -/
def main_encode_run (fail : Option EncFail) : EncTemps :=
  let r1 := compress_folder_to_zst fail ⟨false, false, false⟩
  let r2 := if r1.2 then encode_zst_to_video fail r1.1 else (r1.1, false)
  { r2.1 with tempZst := false }

/-- The temporary artifacts of the decode pipeline: the raw ffmpeg output
file, the restored `.zst` stream, and the temporary TAR. -/
structure DecTemps where
  rawFile : Bool
  tempZst : Bool
  tempTar : Bool
deriving DecidableEq

/-- The decode-pipeline steps at which an external invocation or file
read can fail, in execution order. -/
inductive DecFail where
  | ffmpegDecode
  | metaRead
  | zstdDecompress
  | tarExtract
deriving DecidableEq

/-- Temp-file lifecycle of `decode_video_to_zst` (bin2vid.py
lines 190-238): the raw file is created up front, ffmpeg, the metadata
read and the output write run inside `try`, and the `finally`
(lines 235-238) removes the raw file whether or not a step failed. In the
decode pipeline the output `.zst` is itself the orchestrator's temporary. -/
def decode_video_to_zst_cleanup (fail : Option DecFail) (s : DecTemps) : DecTemps × Bool :=
  let s1 := { s with rawFile := true }
  if fail = some DecFail.ffmpegDecode then ({ s1 with rawFile := false }, false)
  else if fail = some DecFail.metaRead then ({ s1 with rawFile := false }, false)
  else
    let s2 := { s1 with tempZst := true }
    ({ s2 with rawFile := false }, true)

/-- Temp-file lifecycle of `decompress_zst_to_folder` (bin2vid.py
lines 101-132): `mkstemp` creates the temporary TAR, zstd decompression
and TAR extraction run inside `try`, and the `finally` (lines 129-132)
removes the TAR whether or not a step failed. -/
def decompress_zst_to_folder (fail : Option DecFail) (s : DecTemps) : DecTemps × Bool :=
  let s1 := { s with tempTar := true }
  if fail = some DecFail.zstdDecompress then ({ s1 with tempTar := false }, false)
  else if fail = some DecFail.tarExtract then ({ s1 with tempTar := false }, false)
  else ({ s1 with tempTar := false }, true)

/-- The decode branch of `main` (bin2vid.py lines 275-288): the two stages
run inside `try`, and the `finally` (lines 285-288) removes the temporary
`.zst`. The result is the final temp-file state after all cleanup. -/
def main_decode_run (fail : Option DecFail) : DecTemps :=
  let r1 := decode_video_to_zst_cleanup fail ⟨false, false, false⟩
  let r2 := if r1.2 then decompress_zst_to_folder fail r1.1 else (r1.1, false)
  { r2.1 with tempZst := false }

/-! ### Theorems -/

-- Basic facts about the ceiling division used by `num_frames`.

theorem num_frames_mul_ge (L : Nat) : L ≤ num_frames L * BYTES_PER_FRAME := by
  unfold num_frames
  have hF : BYTES_PER_FRAME = 6220800 := by norm_num [BYTES_PER_FRAME, PIXELS_PER_FRAME, WIDTH, HEIGHT]
  rw [hF]
  have hdm := Nat.div_add_mod (L + 6220800 - 1) 6220800
  have hlt : (L + 6220800 - 1) % 6220800 < 6220800 := Nat.mod_lt _ (by norm_num)
  omega

theorem num_frames_min (L m : Nat) (h : L ≤ m * BYTES_PER_FRAME) :
    num_frames L ≤ m := by
  unfold num_frames
  have hF : BYTES_PER_FRAME = 6220800 := by norm_num [BYTES_PER_FRAME, PIXELS_PER_FRAME, WIDTH, HEIGHT]
  rw [hF] at h ⊢
  have hdm := Nat.div_add_mod (L + 6220800 - 1) 6220800
  have hlt : (L + 6220800 - 1) % 6220800 < 6220800 := Nat.mod_lt _ (by norm_num)
  omega

theorem padded_length (data : List Nat) :
    (padded data).length = num_frames data.length * BYTES_PER_FRAME := by
  have h := num_frames_mul_ge data.length
  simp only [padded, List.length_append, List.length_replicate]
  rw [Nat.mul_comm BYTES_PER_FRAME]
  omega

/-- C1: for every byte sequence `b`, unpacking the packed frames with the
recorded original size returns `b` exactly:
`restored (padded b) (len b) = b`. -/
theorem roundtrip_pack_unpack (b : List Nat) :
    restored (padded b) (b.length : Int) = b := by
  simp only [restored, pySliceTo, if_pos (by positivity : (0:Int) ≤ (b.length : Int))]
  simp only [Int.toNat_ofNat, padded]
  exact List.take_left b _

/-- C4: the frame count is the minimal number of frames covering the
payload (the ceiling of `len(b) / F`), the padded stream is exactly
`frame_count * F` bytes, and the empty payload yields zero frames and an
empty padded stream. -/
theorem frame_count_minimal (b : List Nat) :
    b.length ≤ num_frames b.length * BYTES_PER_FRAME ∧
    (∀ m, b.length ≤ m * BYTES_PER_FRAME → num_frames b.length ≤ m) ∧
    (padded b).length = num_frames b.length * BYTES_PER_FRAME ∧
    num_frames 0 = 0 ∧ padded [] = [] := by
  refine ⟨num_frames_mul_ge _, fun m hm => num_frames_min _ m hm, padded_length b, ?_, ?_⟩
  · norm_num [num_frames, BYTES_PER_FRAME, PIXELS_PER_FRAME, WIDTH, HEIGHT]
  · norm_num [padded, num_frames, BYTES_PER_FRAME, PIXELS_PER_FRAME, WIDTH, HEIGHT]

/-- Witness for C4 at a concrete payload: a 1-byte payload needs at most
one frame. -/
theorem frame_count_minimal_witness :
    ([3] : List Nat).length ≤ 1 * BYTES_PER_FRAME ∧ num_frames ([3] : List Nat).length ≤ 1 :=
  ⟨by norm_num [BYTES_PER_FRAME, PIXELS_PER_FRAME, WIDTH, HEIGHT],
   (frame_count_minimal [3]).2.1 1
     (by norm_num [BYTES_PER_FRAME, PIXELS_PER_FRAME, WIDTH, HEIGHT])⟩

/-- C5: the padded stream begins with the payload itself, every byte at an
index at or past the payload length is zero, and the padding is strictly
less than one full frame (`N*F >= L` and `N*F - F < L` over the integers). -/
theorem padding_content (b : List Nat) :
    (padded b).take b.length = b ∧
    (∀ i, (h : i < (padded b).length) → b.length ≤ i → (padded b)[i] = 0) ∧
    b.length ≤ num_frames b.length * BYTES_PER_FRAME ∧
    ((num_frames b.length * BYTES_PER_FRAME : Int) - BYTES_PER_FRAME < b.length) := by
  refine ⟨List.take_left b _, ?_, num_frames_mul_ge _, ?_⟩
  · intro i h hle
    simp only [padded]
    rw [List.getElem_append_right hle]
    exact List.getElem_replicate ..
  · have hF : BYTES_PER_FRAME = 6220800 := by norm_num [BYTES_PER_FRAME, PIXELS_PER_FRAME, WIDTH, HEIGHT]
    unfold num_frames
    rw [hF]
    have hdm := Nat.div_add_mod (b.length + 6220800 - 1) 6220800
    have hlt : (b.length + 6220800 - 1) % 6220800 < 6220800 := Nat.mod_lt _ (by norm_num)
    have hq : (b.length + 6220800 - 1) / 6220800 * 6220800 ≤ b.length + 6220800 - 1 := by omega
    push_cast
    omega

/-- Witness for C5 at the 1-byte payload `[7]`: byte index 1 of the padded
stream lies in the padding and is zero. -/
theorem padding_content_witness :
    ∃ h : 1 < (padded [7]).length, (padded [7]).get ⟨1, h⟩ = 0 := by
  have hlen : (padded [7]).length = 6220800 := by
    rw [padded_length]
    norm_num [num_frames, BYTES_PER_FRAME, PIXELS_PER_FRAME, WIDTH, HEIGHT]
  refine ⟨by omega, ?_⟩
  rw [List.get_eq_getElem]
  exact (padding_content [7]).2.1 1 (by omega) (by norm_num)

/-- C9: the unpack step is total: for every frame stream and non-negative
`original_size`, the Python slice returns exactly the first
`min(original_size, len(frames))` bytes, never an error; when the stream
is shorter than `original_size` the result is silently the whole stream. -/
theorem unpack_total (frames : List Nat) (n : Int) (h : 0 ≤ n) :
    restored frames n = frames.take n.toNat ∧
    (restored frames n).length = min n.toNat frames.length ∧
    (frames.length ≤ n.toNat → restored frames n = frames) := by
  refine ⟨?_, ?_, ?_⟩
  · simp [restored, pySliceTo, h]
  · simp [restored, pySliceTo, h, List.length_take]
  · intro hle
    simp [restored, pySliceTo, h, List.take_of_length_le hle]

/-- Witness for C9: a 2-byte stream sliced to 5 bytes returns the whole
stream without error. -/
theorem unpack_total_witness :
    restored [1, 2] (5 : Int) = [1, 2] :=
  (unpack_total [1, 2] 5 (by norm_num)).2.2 (by norm_num)

theorem natDigitsAux_fuel (f1 : Nat) : ∀ f2 n, n < f1 → n < f2 →
    natDigitsAux f1 n = natDigitsAux f2 n := by
  induction f1 with
  | zero => intro f2 n h1 _; omega
  | succ f ih =>
    intro f2 n h1 h2
    match f2, h2 with
    | f2 + 1, _ =>
      simp only [natDigitsAux]
      by_cases h10 : n < 10
      · simp [h10]
      · have hdiv : n / 10 < n := Nat.div_lt_self (by omega) (by omega)
        simp only [if_neg h10]
        rw [ih f2 (n / 10) (by omega) (by omega)]

/-- The unfolding equation for `natDigits`. -/
theorem natDigits_eq (n : Nat) :
    natDigits n = if n < 10 then [digitChar n]
      else natDigits (n / 10) ++ [digitChar (n % 10)] := by
  have step : natDigitsAux (n + 1) n
      = if n < 10 then [digitChar n]
        else natDigitsAux n (n / 10) ++ [digitChar (n % 10)] := rfl
  by_cases h10 : n < 10
  · unfold natDigits
    rw [step, if_pos h10, if_pos h10]
  · have hdiv : n / 10 < n := Nat.div_lt_self (by omega) (by omega)
    unfold natDigits
    rw [step, if_neg h10, if_neg h10,
      natDigitsAux_fuel n (n / 10 + 1) (n / 10) (by omega) (by omega)]

/-! ### Correctness of the decimal print/parse round trip -/

theorem digitChar_spec (k : Nat) (h : k < 10) :
    charDigit? (digitChar k) = some k ∧ isPySpace (digitChar k) = false ∧
    digitChar k ≠ '\n' ∧ digitChar k ≠ '-' ∧ digitChar k ≠ '+' := by
  interval_cases k <;> exact ⟨by decide, by decide, by decide, by decide, by decide⟩

theorem natDigits_mem (n : Nat) : ∀ c ∈ natDigits n, ∃ k, k < 10 ∧ c = digitChar k := by
  induction n using Nat.strong_induction_on with
  | _ n ih =>
    rw [natDigits_eq]
    by_cases h10 : n < 10
    · rw [if_pos h10]
      intro c hc
      exact ⟨n, h10, (List.mem_singleton.mp hc)⟩
    · rw [if_neg h10]
      intro c hc
      rcases List.mem_append.mp hc with hc | hc
      · exact ih (n / 10) (Nat.div_lt_self (by omega) (by omega)) c hc
      · exact ⟨n % 10, Nat.mod_lt _ (by omega), List.mem_singleton.mp hc⟩

theorem natDigits_ne_nil (n : Nat) : natDigits n ≠ [] := by
  rw [natDigits_eq]
  by_cases h10 : n < 10 <;> simp [h10]

theorem parseDigitsFrom_append (xs ys : List Char) (acc : Nat) :
    parseDigitsFrom acc (xs ++ ys) =
      (parseDigitsFrom acc xs).bind (fun a => parseDigitsFrom a ys) := by
  induction xs generalizing acc with
  | nil => rfl
  | cons c cs ih =>
    simp only [List.cons_append, parseDigitsFrom]
    cases charDigit? c with
    | none => rfl
    | some d => exact ih _

theorem parseDigitsFrom_natDigits (n : Nat) : ∀ acc,
    parseDigitsFrom acc (natDigits n) =
      some (acc * 10 ^ (natDigits n).length + n) := by
  induction n using Nat.strong_induction_on with
  | _ n ih =>
    intro acc
    rw [natDigits_eq]
    by_cases h10 : n < 10
    · rw [if_pos h10]
      simp only [parseDigitsFrom, (digitChar_spec n h10).1]
      simp only [List.length_singleton, pow_one]
      congr 1
      ring
    · rw [if_neg h10]
      have hdiv : n / 10 < n := Nat.div_lt_self (by omega) (by omega)
      rw [parseDigitsFrom_append, ih (n / 10) hdiv acc]
      simp only [Option.some_bind, parseDigitsFrom, (digitChar_spec (n % 10) (Nat.mod_lt _ (by omega))).1]
      congr 1
      rw [List.length_append, List.length_singleton]
      calc 10 * (acc * 10 ^ (natDigits (n / 10)).length + n / 10) + n % 10
          = 10 * (acc * 10 ^ (natDigits (n / 10)).length) + (10 * (n / 10) + n % 10) := by ring
        _ = 10 * (acc * 10 ^ (natDigits (n / 10)).length) + n := by rw [Nat.div_add_mod]
        _ = acc * (10 ^ (natDigits (n / 10)).length * 10) + n := by ring
        _ = acc * 10 ^ ((natDigits (n / 10)).length + 1) + n := by rw [pow_succ]

theorem parseUnsigned_natDigits (n : Nat) : parseUnsigned? (natDigits n) = some n := by
  unfold parseUnsigned?
  rw [if_neg (natDigits_ne_nil n), parseDigitsFrom_natDigits n 0]
  simp

theorem dropWhile_eq_self_of_all (p : Char → Bool) (cs : List Char)
    (h : ∀ c ∈ cs, p c = false) : cs.dropWhile p = cs := by
  cases cs with
  | nil => rfl
  | cons c cs' =>
    exact List.dropWhile_cons_of_neg (by simp [h c (List.mem_cons_self ..)])

theorem pyStripList_noop (cs : List Char) (h : ∀ c ∈ cs, isPySpace c = false) :
    pyStripList cs = cs := by
  unfold pyStripList
  rw [dropWhile_eq_self_of_all _ _ h,
    dropWhile_eq_self_of_all _ _ (fun c hc => h c (List.mem_reverse.mp hc)),
    List.reverse_reverse]

theorem pyIntList_natDigits (n : Nat) : pyIntList? (natDigits n) = some (n : Int) := by
  have hmem := natDigits_mem n
  have hstrip : pyStripList (natDigits n) = natDigits n :=
    pyStripList_noop _ (fun c hc => by
      obtain ⟨k, hk, rfl⟩ := hmem c hc
      exact (digitChar_spec k hk).2.1)
  unfold pyIntList?
  rw [hstrip]
  cases hnd : natDigits n with
  | nil => exact absurd hnd (natDigits_ne_nil n)
  | cons c rest =>
    obtain ⟨k, hk, rfl⟩ := hmem c (by rw [hnd]; exact List.mem_cons_self ..)
    simp only
    rw [if_neg (digitChar_spec k hk).2.2.2.1, if_neg (digitChar_spec k hk).2.2.2.2]
    rw [← hnd, parseUnsigned_natDigits]
    rfl

theorem splitNl_append_nl (A rest : List Char) (h : '\n' ∉ A) :
    splitNl (A ++ '\n' :: rest) = A :: splitNl rest := by
  induction A with
  | nil => simp [splitNl]
  | cons c cs ih =>
    have hc : ¬ c = '\n' := fun hh => h (hh ▸ List.mem_cons_self ..)
    simp only [List.cons_append, splitNl, if_neg hc, List.append_eq]
    rw [ih (fun hm => h (List.mem_cons_of_mem _ hm))]

theorem splitNl_no_nl (B : List Char) (h : '\n' ∉ B) : splitNl B = [B] := by
  induction B with
  | nil => rfl
  | cons c cs ih =>
    have hc : ¬ c = '\n' := fun hh => h (hh ▸ List.mem_cons_self ..)
    simp only [splitNl, if_neg hc]
    rw [ih (fun hm => h (List.mem_cons_of_mem _ hm))]

theorem pyStripList_meta (A B : List Char)
    (hA : ∀ c ∈ A, isPySpace c = false) (hB : ∀ c ∈ B, isPySpace c = false)
    (hAn : A ≠ []) (hBn : B ≠ []) :
    pyStripList (A ++ '\n' :: (B ++ ['\n'])) = A ++ '\n' :: B := by
  unfold pyStripList
  obtain ⟨a, A2, rfl⟩ : ∃ a A2, A = a :: A2 := by
    cases A with
    | nil => exact absurd rfl hAn
    | cons a A2 => exact ⟨a, A2, rfl⟩
  have ha : isPySpace a = false := hA a (List.mem_cons_self ..)
  rw [List.cons_append, List.dropWhile_cons_of_neg (by simp [ha]), ← List.cons_append]
  have hrev : ((a :: A2) ++ '\n' :: (B ++ ['\n'])).reverse
      = '\n' :: (B.reverse ++ '\n' :: (a :: A2).reverse) := by
    simp [List.reverse_append]
  rw [hrev, List.dropWhile_cons_of_pos (by decide)]
  obtain ⟨b, R, hbR⟩ : ∃ b R, B.reverse = b :: R := by
    cases hr : B.reverse with
    | nil => exact absurd (List.reverse_eq_nil_iff.mp hr) hBn
    | cons b R => exact ⟨b, R, rfl⟩
  have hb : isPySpace b = false :=
    hB b (by rw [← List.mem_reverse, hbR]; exact List.mem_cons_self ..)
  rw [hbR, List.cons_append, List.dropWhile_cons_of_neg (by simp [hb]),
    ← List.cons_append, ← hbR]
  simp [List.reverse_append]

theorem natDigits_no_space (n : Nat) : ∀ c ∈ natDigits n, isPySpace c = false := by
  intro c hc
  obtain ⟨k, hk, rfl⟩ := natDigits_mem n c hc
  exact (digitChar_spec k hk).2.1

theorem natDigits_no_nl (n : Nat) : '\n' ∉ natDigits n := by
  intro hm
  obtain ⟨k, hk, he⟩ := natDigits_mem n _ hm
  exact (digitChar_spec k hk).2.2.1 he.symm

theorem metaLines_writeMeta (L N : Nat) :
    metaLines (writeMeta L N) = [natDigits L, natDigits N] := by
  unfold metaLines writeMeta
  rw [show (String.mk (natDigits L ++ '\n' :: (natDigits N ++ ['\n']))).data
      = natDigits L ++ '\n' :: (natDigits N ++ ['\n']) from rfl]
  rw [pyStripList_meta _ _ (natDigits_no_space L) (natDigits_no_space N)
    (natDigits_ne_nil L) (natDigits_ne_nil N)]
  rw [splitNl_append_nl _ _ (natDigits_no_nl L), splitNl_no_nl _ (natDigits_no_nl N)]

/-- C6: writing the metadata record `(L, N)` and reading it back through
the decoder's line-splitting and integer parsing returns exactly the pair
`(L, N)`, for arbitrary non-negative integers. -/
theorem metadata_roundtrip (L N : Nat) :
    readMetaPair (writeMeta L N) = some ((L : Int), (N : Int)) := by
  unfold readMetaPair
  rw [metaLines_writeMeta]
  simp only [List.headD_cons, List.getD, List.get?, Option.getD_some]
  rw [pyIntList_natDigits, pyIntList_natDigits]

theorem readOriginalSize_writeMeta (L N : Nat) :
    readOriginalSize (writeMeta L N) = some (L : Int) := by
  unfold readOriginalSize
  rw [metaLines_writeMeta]
  simp only [List.headD_cons]
  exact pyIntList_natDigits L

/-! ### Claim theorems over the decode, tool-check and cleanup models -/

/-- C2 counterexample: with an empty decoded frame stream and a recorded
original size of 1 (`len(frames) < original_size`), the code's unpacker
returns the empty byte string as a normal result instead of signalling
`TruncatedFrameData`, which is what the spec's unpacker does there. -/
theorem truncated_not_signalled :
    ([] : List Nat).length < 1 ∧
    restored [] (1 : Int) = [] ∧
    specUnpack [] 1 = .error .truncatedFrameData :=
  ⟨by decide, by rfl, by rfl⟩

/-- C2 amended: when the decoded frame stream is shorter than the recorded
original size, the unpacker signals nothing: it silently returns the
entire (short) frame stream, a result strictly shorter than
`original_size`. -/
theorem truncated_silently_short (frames : List Nat) (n : Int)
    (h0 : 0 ≤ n) (h : frames.length < n.toNat) :
    restored frames n = frames ∧ (restored frames n).length < n.toNat := by
  have he : restored frames n = frames := by
    simp [restored, pySliceTo, h0, List.take_of_length_le (le_of_lt h)]
  exact ⟨he, by rw [he]; exact h⟩

/-- Witness for the amended C2 at the empty stream and size 1. -/
theorem truncated_silently_short_witness :
    restored [] (1 : Int) = [] ∧ (restored [] (1 : Int)).length < 1 :=
  truncated_silently_short [] 1 (by norm_num) (by norm_num)

/-- C3 counterexample: a metadata file holding the single line `42` (fewer
than two lines) is not rejected: decode parses it and succeeds, and the
video codec is invoked (the first step of the run) even though the claim
requires aborting before the codec on malformed metadata. -/
theorem metadata_single_line_accepted :
    decode_video_to_zst (some "42") [1, 2, 3]
      = ([.runFfmpegDecode, .openMetaFile, .writeOutputFile], .ok [1, 2, 3]) := by
  rfl

/-- C3 amended: a missing metadata file raises `FileNotFoundError` and an
unparsable first line raises `ValueError`, but in every run — error or
not — the video codec is the first step performed, so the decode never
aborts before invoking the codec; a metadata file with fewer than two
lines whose first line parses as an integer is accepted without error. -/
theorem metadata_errors_after_codec (mc : Option String) (data : List Nat) :
    (decode_video_to_zst mc data).1.head? = some .runFfmpegDecode ∧
    (mc = none → (decode_video_to_zst mc data).2 = .error .fileNotFoundError) ∧
    (∀ c, mc = some c → readOriginalSize c = none →
      (decode_video_to_zst mc data).2 = .error .valueError) := by
  refine ⟨?_, ?_, ?_⟩
  · cases mc with
    | none => rfl
    | some c =>
      simp only [decode_video_to_zst]
      cases readOriginalSize c <;> rfl
  · intro h
    subst h
    rfl
  · intro c hm hparse
    subst hm
    simp only [decode_video_to_zst]
    rw [hparse]

/-- Witness for the amended C3: decoding with a missing metadata file
raises `FileNotFoundError`. -/
theorem metadata_errors_after_codec_witness :
    (decode_video_to_zst none [5]).2 = .error .fileNotFoundError :=
  (metadata_errors_after_codec none [5]).2.1 rfl

/-- C7: when a required external tool is missing, `main` exits with
status 1 (non-zero) right after the tool check, performs no file-touching
action, and a diagnostic naming the situation is raised by `check_tools`. -/
theorem missing_tool_aborts (a : ToolAvail) (cmd : Command)
    (h : missing_tools a ≠ []) :
    (main_run a cmd).2 = 1 ∧ (main_run a cmd).2 ≠ 0 ∧
    (main_run a cmd).1 = [.checkToolsStep] ∧
    check_tools a = .error
      ("Required tools not found: " ++ String.intercalate ", " (missing_tools a)) := by
  have hc : check_tools a = .error
      ("Required tools not found: " ++ String.intercalate ", " (missing_tools a)) := by
    unfold check_tools
    rw [if_neg h]
  unfold main_run
  rw [hc]
  refine ⟨rfl, ?_, rfl, rfl⟩
  show (1 : Nat) ≠ 0
  decide

/-- Witness for C7: with ffmpeg missing and zstd present, every command
exits with status 1 after only the tool check. -/
theorem missing_tool_aborts_witness :
    (main_run ⟨false, true⟩ Command.encode).2 = 1 ∧
    (main_run ⟨false, true⟩ Command.encode).2 ≠ 0 ∧
    (main_run ⟨false, true⟩ Command.encode).1 = [.checkToolsStep] ∧
    check_tools ⟨false, true⟩ = .error
      ("Required tools not found: "
        ++ String.intercalate ", " (missing_tools ⟨false, true⟩)) :=
  missing_tool_aborts ⟨false, true⟩ Command.encode (by decide)

/-- C8 counterexample: when the write of the padded frame stream to the
raw temp file fails (bin2vid.py line 151, before the `try` of
`encode_zst_to_video`), the encode pipeline ends with the raw
padded-frame temporary still on disk — so it is not the case that every
temporary is deleted regardless of which stage failed. -/
theorem raw_temp_leaks_on_write_failure :
    main_encode_run (some EncFail.rawWrite) = ⟨false, false, true⟩ ∧
    (main_encode_run (some EncFail.rawWrite)).rawFile = true :=
  ⟨rfl, rfl⟩

/-- C8 amended: after cleanup, no temporary artifact of either pipeline
remains on success or on failure of any step inside a `try` block (TAR
build, zstd compression, metadata write, ffmpeg encode; ffmpeg decode,
metadata read, zstd decompression, TAR extraction); the single exception
is the raw padded-frame write of the encode pipeline, which precedes its
`try`, so a failure there leaks the raw frame temp file. -/
theorem temps_cleaned_except_raw_write (fe : Option EncFail) (fd : Option DecFail)
    (h : fe ≠ some EncFail.rawWrite) :
    main_encode_run fe = ⟨false, false, false⟩ ∧
    main_decode_run fd = ⟨false, false, false⟩ := by
  constructor
  · rcases fe with _ | f
    · rfl
    · cases f
      case tarBuild => rfl
      case zstdCompress => rfl
      case rawWrite => exact absurd rfl h
      case metaWrite => rfl
      case ffmpegEncode => rfl
  · rcases fd with _ | f
    · rfl
    · cases f <;> rfl

/-- Witness for the amended C8: an ffmpeg failure in either pipeline still
leaves no temporary behind. -/
theorem temps_cleaned_except_raw_write_witness :
    main_encode_run (some EncFail.ffmpegEncode) = ⟨false, false, false⟩ ∧
    main_decode_run (some DecFail.ffmpegDecode) = ⟨false, false, false⟩ :=
  temps_cleaned_except_raw_write (some EncFail.ffmpegEncode)
    (some DecFail.ffmpegDecode) (by decide)

/-- C10: the decode result is a function of the integer parsed from the
first metadata line alone: two metadata contents whose first line parses
to the same integer give identical results on the same frame stream, and
the frame count written on line 2 never influences the output. -/
theorem decode_depends_only_on_first_line (c1 c2 : String) (data : List Nat)
    (h : readOriginalSize c1 = readOriginalSize c2) :
    decode_video_to_zst (some c1) data = decode_video_to_zst (some c2) data ∧
    (∀ L n1 n2 : Nat, decode_video_to_zst (some (writeMeta L n1)) data
      = decode_video_to_zst (some (writeMeta L n2)) data) := by
  constructor
  · simp only [decode_video_to_zst]
    rw [h]
  · intro L n1 n2
    simp only [decode_video_to_zst]
    rw [readOriginalSize_writeMeta, readOriginalSize_writeMeta]

/-- Witness for C10: the metadata contents `42` and ` 42` followed by a
junk second line parse to the same first integer and decode identically. -/
theorem decode_depends_only_on_first_line_witness :
    readOriginalSize "42" = readOriginalSize " 42\njunk" ∧
    decode_video_to_zst (some "42") [9, 9]
      = decode_video_to_zst (some " 42\njunk") [9, 9] :=
  ⟨by decide,
   (decode_depends_only_on_first_line "42" " 42\njunk" [9, 9] (by decide)).1⟩

